import Mathlib

/-!
Verification of the voyager price-tracking backend.

This file gives a shallow embedding of the core of the repository:

* the text-normalization helpers used by the scrapers
  (`BaseScraper._extract_price`, the generic scraper's inline price
  parsing, `NeptunScraper._parse_price_to_int`),
* store-identity resolution (`DatabaseRepository.get_or_create_store`,
  built on `urllib.parse.urlparse(...).netloc`),
* the batch upsert algorithm (`DatabaseRepository.save_scraped_products`)
  over an in-memory relational state,
* the latest-price selection of the read queries
  (`list_recent_products`, `search_products`),
* the record-emission filters of the extraction loops
  (`_generic_scrape`, `NeptunScraper.parse_products`),
* the renderer-handle lifecycle of `BaseScraper.scrape` /
  `BaseScraper._fetch_with_selenium`, and
* the orchestration loop `run_auto_scraper`, together with the
  keyword-argument acceptance of the `scrape_url` entry point.

Machine integers do not occur (Python ints are unbounded; SQL ids are
modelled as `Nat`, prices as `ℚ`).  Timestamps are `Nat` values; a whole
batch transaction runs at one timestamp, matching `CURRENT_TIMESTAMP`
inside a single transaction.
-/

/-! ### Character-list utilities

Python string primitives (`str.replace`, `str.strip`, substring search)
are modelled on `List Char` by structural recursion so that every
definition evaluates inside the kernel.  `str.replace` scans left to
right and replaces non-overlapping occurrences; the fuel argument is the
length of the string, which bounds the number of steps because every
replacement consumes at least one character of the input.
-/

def replaceListF (pat rep : List Char) : Nat → List Char → List Char
  | _, [] => []
  | 0, s => s
  | n + 1, c :: cs =>
    if !pat.isEmpty && pat.isPrefixOf (c :: cs) then
      rep ++ replaceListF pat rep n ((c :: cs).drop pat.length)
    else
      c :: replaceListF pat rep n cs

/-- Python `s.replace(pat, rep)` on character lists. -/
def replaceList (pat rep s : List Char) : List Char :=
  replaceListF pat rep s.length s

/-- Python `s.strip()` (default whitespace set). -/
def stripChars (s : List Char) : List Char :=
  ((s.dropWhile (·.isWhitespace)).reverse.dropWhile (·.isWhitespace)).reverse

/-- The suffix of `s` following the first occurrence of `pat`
(`none` when `pat` does not occur).  `pat` is assumed non-empty. -/
def afterSub (pat : List Char) : List Char → Option (List Char)
  | [] => none
  | c :: cs =>
    if pat.isPrefixOf (c :: cs) then some ((c :: cs).drop pat.length)
    else afterSub pat cs

/-- Numeric value of a digit run (Python `int` of a digit string body). -/
def digitsToNat (cs : List Char) : Nat :=
  cs.foldl (fun n c => n * 10 + (c.toNat - 48)) 0

/-! ### Price-text parsing

`matchNumAt`/`regexSearchNum` model `re.search(r'\d+\.?\d*', s)`:
the leftmost match starts at the first digit of `s`; greedy matching
takes the maximal digit run, then an optional single `'.'`, then a
maximal digit run.  `parseDecimal` models Python `float` on the matched
text (digits, optionally followed by `'.'` and digits), exactly, as a
rational number.
-/

def matchNumAt (s : List Char) : List Char :=
  let ds := s.takeWhile (·.isDigit)
  match s.drop ds.length with
  | '.' :: rest => ds ++ '.' :: rest.takeWhile (·.isDigit)
  | _ => ds

def regexSearchNum : List Char → Option (List Char)
  | [] => none
  | c :: cs => if c.isDigit then some (matchNumAt (c :: cs)) else regexSearchNum cs

def decIntPart (cs : List Char) : List Char :=
  cs.takeWhile (·.isDigit)

def decFracPart (cs : List Char) : List Char :=
  match cs.drop (decIntPart cs).length with
  | '.' :: rest => rest
  | _ => []

def parseDecimal (cs : List Char) : ℚ :=
  (digitsToNat (decIntPart cs) : ℚ) +
    (digitsToNat (decFracPart cs) : ℚ) / ((10 : ℚ) ^ (decFracPart cs).length)

/-- Model of `BaseScraper._extract_price` (src/scrapers/base.py lines 196-219):
`if not price_text: return None`, strip `$`/`€`/`£`, `strip()`, replace
`,` by `.`, then `re.search(r'\d+\.?\d*', ...)` and `float` on the
match, else `None`. -/
def extract_price (price_text : String) : Option ℚ :=
  if price_text.isEmpty then none
  else
    let clean :=
      stripChars (replaceList "£".data [] (replaceList "€".data []
        (replaceList "$".data [] price_text.data)))
    let clean2 := replaceList ",".data ".".data clean
    (regexSearchNum clean2).map parseDecimal

/-- The generic scraper's inline price parsing (src/core/scraper.py lines
100-103): `re.search(r'[\d,]+\.?\d*', price_text.replace(',', ''))`,
then `float` on the match.  On the comma-free argument the character
class `[\d,]` matches exactly the digits, so the regex coincides with
`\d+\.?\d*`. -/
def genericParsePrice (price_text : String) : Option ℚ :=
  (regexSearchNum (replaceList ",".data [] price_text.data)).map parseDecimal

/-- Python `int(s)` on a stripped string: optional sign followed by a
non-empty digit run; anything else raises `ValueError` (`none`). -/
def pyInt (cs : List Char) : Option Int :=
  match cs with
  | '-' :: ds => if ds ≠ [] ∧ ds.all (·.isDigit) then some (-(digitsToNat ds : Int)) else none
  | '+' :: ds => if ds ≠ [] ∧ ds.all (·.isDigit) then some (digitsToNat ds : Int) else none
  | ds => if ds ≠ [] ∧ ds.all (·.isDigit) then some (digitsToNat ds : Int) else none

/-- Model of `NeptunScraper._parse_price_to_int` (src/scrapers/neptun/neptun.py
lines 21-39): strip `ден`/`MKD` and whitespace, drop every `,` and `.`,
then `int(...)`; parse failure yields `None`. -/
def parse_price_to_int (price_text : String) : Option Int :=
  let cleaned :=
    stripChars (replaceList "MKD".data [] (replaceList "ден".data [] price_text.data))
  pyInt (replaceList ".".data [] (replaceList ",".data [] cleaned))

/-! ### Store identity -/

/-- Model of `urlparse(url).netloc` for `scheme://host/...` URLs: the characters
after the first `://` up to the next `/`, `?` or `#`; empty when the URL
has no `://`.  Note `urlparse` preserves the case of the network
location (only the scheme is lowercased). -/
def netloc (url : String) : String :=
  match afterSub "://".data url.data with
  | some rest => String.mk (rest.takeWhile (fun c => !(c == '/' || c == '?' || c == '#')))
  | none => ""

/-- Store naming in `get_or_create_store` (src/core/repository.py lines
41-43): `urlparse(url).netloc` followed by `.replace('www.', '')`. -/
def storeNameOf (url : String) : String :=
  String.mk (replaceList "www.".data [] (netloc url).data)

/-! ### Relational state

In-memory model of the three tables written by the repository plus the
static `categories` table.  Serial primary keys are modelled by the
`next…Id` counters; `SERIAL` assigns ids in insertion order.
-/

structure StoreRow where
  id : Nat
  name : String
  url : String
deriving DecidableEq, Repr

structure CategoryRow where
  id : Nat
  slug : String
deriving DecidableEq, Repr

structure ProductRow where
  id : Nat
  store_id : Nat
  name : String
  url : String
  image : Option String
  category_id : Option Nat
  last_scraped_at : Nat
deriving DecidableEq, Repr

structure PriceRow where
  id : Nat
  product_id : Nat
  price : ℚ
  currency : String
  scraped_at : Nat
deriving DecidableEq, Repr

structure DB where
  stores : List StoreRow
  categories : List CategoryRow
  products : List ProductRow
  prices : List PriceRow
  nextStoreId : Nat
  nextProductId : Nat
  nextPriceId : Nat
deriving DecidableEq, Repr

def emptyDB : DB :=
  { stores := [], categories := [], products := [], prices := [],
    nextStoreId := 1, nextProductId := 1, nextPriceId := 1 }

/-- A scraped product record (a Python dict).  `none` in a field means
the key is absent from the dict (for `image`: absent or falsy where the
code tests truthiness). -/
structure ScrapedRecord where
  name : Option String
  price : Option ℚ
  url : Option String
  image : Option String
  category : Option String
  currency : Option String
deriving DecidableEq, Repr

/-- Python truthiness of an optional string (`None` and `''` are falsy). -/
def truthyStr : Option String → Bool
  | none => false
  | some s => !s.isEmpty

/-- Model of `get_or_create_store` (repository.py lines 31-65): look up the store
by derived name, else insert a new row; runs on its own connection and
commits immediately. -/
def get_or_create_store (db : DB) (url : String) : Nat × DB :=
  let nm := storeNameOf url
  match db.stores.find? (fun s => s.name == nm) with
  | some s => (s.id, db)
  | none =>
      (db.nextStoreId,
       { db with
           stores := db.stores ++ [{ id := db.nextStoreId, name := nm, url := url }],
           nextStoreId := db.nextStoreId + 1 })

/-- Model of `get_category_id_by_slug` (repository.py lines 102-122): `None` for
a falsy slug, else a lookup in the static `categories` table. -/
def get_category_id_by_slug (db : DB) (slug : String) : Option Nat :=
  if slug.isEmpty then none
  else (db.categories.find? (fun c => c.slug == slug)).map (·.id)

/-- Category resolution for one record inside the batch loop
(repository.py lines 367-371): a record-level `category` key overrides
the batch-level category id. -/
def lookupCat (db : DB) (batchCat : Option Nat) (r : ScrapedRecord) : Option Nat :=
  match r.category with
  | some slug => get_category_id_by_slug db slug
  | none => batchCat

/-- The product lookup of the batch loop (repository.py lines 361-365):
`SELECT id FROM products WHERE store_id = %s AND url = %s`. -/
def findByKey (l : List ProductRow) (sid : Nat) (u : String) : Option ProductRow :=
  l.find? (fun q => q.store_id == sid && q.url == u)

/-- State threaded through the record loop of `save_scraped_products`:
the uncommitted connection state plus the two counters. -/
structure SaveState where
  db : DB
  productsSaved : Nat
  pricesSaved : Nat
deriving DecidableEq, Repr

/-- One iteration of the record loop of `save_scraped_products`
(repository.py lines 358-412).  A missing dict key raises `KeyError`,
which the per-record `except` catches: the record is abandoned at that
point and the loop continues, keeping every effect already performed.
Hence a record missing `url` does nothing; a record missing `name` on
the insert path does nothing; a record missing `price` keeps its
product insert or update but appends no price row. -/
def processRecord (now sid : Nat) (batchCat : Option Nat) (st : SaveState)
    (r : ScrapedRecord) : SaveState :=
  match r.url with
  | none => st
  | some u =>
    let prodCat := lookupCat st.db batchCat r
    match findByKey st.db.products sid u with
    | some row =>
      let doImg := truthyStr r.image
      let doCat := prodCat.isSome
      let db1 :=
        if doImg || doCat then
          { st.db with
              products := st.db.products.map (fun q =>
                if q.id == row.id then
                  { q with
                      image := if doImg then r.image else q.image,
                      category_id := if doCat then prodCat else q.category_id,
                      last_scraped_at := now }
                else q) }
        else st.db
      match r.price with
      | none => { st with db := db1 }
      | some pr =>
        { st with
            db := { db1 with
                      prices := db1.prices ++
                        [{ id := db1.nextPriceId, product_id := row.id, price := pr,
                           currency := r.currency.getD "MKD", scraped_at := now }],
                      nextPriceId := db1.nextPriceId + 1 },
            pricesSaved := st.pricesSaved + 1 }
    | none =>
      match r.name with
      | none => st
      | some nm =>
        let pid := st.db.nextProductId
        let db1 :=
          { st.db with
              products := st.db.products ++
                [{ id := pid, store_id := sid, name := nm, url := u,
                   image := r.image, category_id := prodCat, last_scraped_at := now }],
              nextProductId := pid + 1 }
        match r.price with
        | none => { st with db := db1, productsSaved := st.productsSaved + 1 }
        | some pr =>
          { st with
              db := { db1 with
                        prices := db1.prices ++
                          [{ id := db1.nextPriceId, product_id := pid, price := pr,
                             currency := r.currency.getD "MKD", scraped_at := now }],
                        nextPriceId := db1.nextPriceId + 1 },
              productsSaved := st.productsSaved + 1,
              pricesSaved := st.pricesSaved + 1 }

/-- Model of `save_scraped_products` (repository.py lines 320-422).  `now` is the
transaction's `CURRENT_TIMESTAMP`.  `commitOk = false` models an
infrastructure failure at `conn.commit()`: the `except` branch rolls the
batch connection back and returns `(0, 0)`.  The store resolution runs
on its own already-committed connection, so it survives the rollback. -/
def save_scraped_products (now : Nat) (db : DB) (commitOk : Bool)
    (products : List ScrapedRecord) (source_url : String)
    (category_slug : Option String) : (Nat × Nat) × DB :=
  if products.isEmpty then ((0, 0), db)
  else
    let sdb := get_or_create_store db source_url
    let catId := category_slug.bind (get_category_id_by_slug sdb.2)
    let fin := products.foldl (processRecord now sdb.1 catId)
      { db := sdb.2, productsSaved := 0, pricesSaved := 0 }
    if commitOk then ((fin.productsSaved, fin.pricesSaved), fin.db)
    else ((0, 0), sdb.2)

/-! ### Latest-price selection of the read queries -/

/-- The price rows of one product, in table (insertion) order. -/
def pricesFor (db : DB) (pid : Nat) : List PriceRow :=
  db.prices.filter (fun pr => pr.product_id == pid)

/-- The query `list_recent_products` (repository.py lines 426-464) joins the price
row whose `id` is `MAX(id)` for the product:
`WHERE pr.id IN (SELECT MAX(id) FROM prices GROUP BY product_id)`. -/
def listRecentPrice (db : DB) (pid : Nat) : Option PriceRow :=
  (pricesFor db pid).foldl
    (fun acc r =>
      match acc with
      | none => some r
      | some b => if b.id < r.id then some r else some b)
    none

/-- The query `search_products` (repository.py lines 466-509) joins
`LATERAL (SELECT ... ORDER BY scraped_at DESC LIMIT 1)`: some row of
maximal `scraped_at`.  SQL fixes no order among rows tying on
`scraped_at`; this model keeps the first such row in table order, one
of the executions the query permits. -/
def searchLatestPrice (db : DB) (pid : Nat) : Option PriceRow :=
  (pricesFor db pid).foldl
    (fun acc r =>
      match acc with
      | none => some r
      | some b => if b.scraped_at < r.scraped_at then some r else some b)
    none

/-- Modelled from the spec: the spec's definition of the most-recent
price of a product — the row with maximal `scraped_at`, ties broken by
the highest `id` (spec §4.5; the repository source contains no function
computing this, it is the reference the queries are compared against). -/
def specMostRecentPrice (db : DB) (pid : Nat) : Option PriceRow :=
  (pricesFor db pid).foldl
    (fun acc r =>
      match acc with
      | none => some r
      | some b =>
        if b.scraped_at < r.scraped_at ∨ (b.scraped_at = r.scraped_at ∧ b.id < r.id)
        then some r else some b)
    none

/-! ### Extraction loops -/

/-- What the generic scraper's DOM probing found inside one container
(src/core/scraper.py lines 77-117): the text of the name element, the
text of the price element, the first anchor's absolutized href — each
`none` when the element is absent. -/
structure GContainer where
  nameText : Option String
  priceText : Option String
  href : Option String
deriving DecidableEq, Repr

structure GRecord where
  name : String
  price : ℚ
  url : String
deriving DecidableEq, Repr

/-- Python `product_url or url` — the `or` falls through on a falsy (absent
or empty) link. -/
def urlOrDefault (pageUrl : String) : Option String → String
  | none => pageUrl
  | some s => if s.isEmpty then pageUrl else s

/-- One iteration of the generic extraction loop (scraper.py lines
77-121): the record is appended only under `if name and price:`, so an
absent or empty name, a failed parse, or a price equal to `0.0` (falsy
in Python) all drop the container silently. -/
def genericRecordOf (pageUrl : String) (c : GContainer) : Option GRecord :=
  let price := c.priceText.bind genericParsePrice
  match c.nameText, price with
  | some nm, some pr =>
    if !nm.isEmpty && (pr != 0) then
      some { name := nm, price := pr, url := urlOrDefault pageUrl c.href }
    else none
  | some _, none => none
  | none, _ => none

/-- Model of `_generic_scrape` over the discovered containers, capped at the
first 50 (`product_containers[:50]`). -/
def generic_scrape_records (pageUrl : String) (cs : List GContainer) : List GRecord :=
  (cs.take 50).filterMap (genericRecordOf pageUrl)

/-- What `NeptunScraper.parse_products` (src/scrapers/neptun/neptun.py
lines 62-112) found inside one `div.theProduct` container. -/
structure NContainer where
  nameText : Option String
  happyPriceText : Option String
  priceNumText : Option String
  href : Option String
  imgSrc : Option String
deriving DecidableEq, Repr

structure NRecord where
  name : String
  price : Int
  url : String
  image : Option String
deriving DecidableEq, Repr

/-- Python truthiness of an optional int (`None` and `0` are falsy). -/
def truthyInt : Option Int → Bool
  | none => false
  | some n => n != 0

/-- One iteration of the Neptun extraction loop: happy-price text is
parsed first; `if not price:` falls back to the regular `priceNum` text
when that parse failed or yielded `0`; the record is appended only
under `if name and price:`. -/
def neptunRecordOf (pageUrl : String) (c : NContainer) : Option NRecord :=
  let p1 := c.happyPriceText.bind parse_price_to_int
  let price := if truthyInt p1 then p1 else c.priceNumText.bind parse_price_to_int
  match c.nameText, price with
  | some nm, some pr =>
    if !nm.isEmpty && (pr != 0) then
      some { name := nm, price := pr, url := urlOrDefault pageUrl c.href,
             image := c.imgSrc }
    else none
  | some _, none => none
  | none, _ => none

def neptun_parse_products (pageUrl : String) (cs : List NContainer) : List NRecord :=
  cs.filterMap (neptunRecordOf pageUrl)

/-! ### Renderer-handle lifecycle -/

/-- Environment of one rendered-fetch scrape: whether `webdriver.Chrome`
constructs, whether navigation and page capture succeed, whether
`parse_products` raises, and what it parses. -/
structure RenderEnv where
  chromeOk : Bool
  navOk : Bool
  parseRaises : Bool
  parsed : List NRecord
deriving Repr

/-- Scraper instance state relevant to the driver: `self.driver`
(`None` at `__init__`), plus the log of handles `quit()` was called on. -/
structure SelState where
  nextHandle : Nat
  driver : Option Nat
  quitted : List Nat
deriving DecidableEq, Repr

/-- Python raised-or-returned results. -/
inductive PyRes (α : Type) where
  | ok : α → PyRes α
  | exc : String → PyRes α
deriving DecidableEq, Repr

/-- Model of `_fetch_with_selenium` (base.py lines 79-122): on a successful
`webdriver.Chrome(...)` the handle is stored in `self.driver`; any
exception afterwards is caught and reported as `False`; a failure of the
constructor itself leaves `self.driver` unset. -/
def fetch_with_selenium (env : RenderEnv) (st : SelState) : Bool × SelState :=
  if env.chromeOk then
    let st1 := { st with driver := some st.nextHandle, nextHandle := st.nextHandle + 1 }
    if env.navOk then (true, st1) else (false, st1)
  else (false, st)

/-- Model of `_cleanup` (base.py lines 187-194): `driver.quit()` whenever a
driver is set (its own exceptions are caught). -/
def cleanup_driver (st : SelState) : SelState :=
  match st.driver with
  | some h => { st with quitted := st.quitted ++ [h] }
  | none => st

/-- Model of `BaseScraper.scrape` (base.py lines 168-185) for a scraper with
`REQUIRES_JAVASCRIPT = True`: the `try` body returns `[]` on a failed
fetch, raises when `parse_products` raises, and returns the parsed
records otherwise; the `finally` runs `_cleanup` on every one of those
exit paths before the call returns. -/
def scrape_rendered (env : RenderEnv) (st : SelState) : PyRes (List NRecord) × SelState :=
  let fr := fetch_with_selenium env st
  let body : PyRes (List NRecord) :=
    if !fr.1 then PyRes.ok []
    else if env.parseRaises then PyRes.exc "parse_products raised"
    else PyRes.ok env.parsed
  (body, cleanup_driver fr.2)

/-- Every handle the run acquired has been passed to `quit()`. -/
def driverReleased (st : SelState) : Bool :=
  match st.driver with
  | some h => st.quitted.contains h
  | none => true

/-! ### Orchestrator and the `scrape_url` call -/

/-- One scrape target of a provider's scrape.json. -/
structure ScrapeTarget where
  url : String
  category : String
  enabled : Bool
deriving DecidableEq, Repr

/-- The formal parameter list of `def scrape_url(url):`
(src/core/scraper.py line 14). -/
def scrape_url_params : List String := ["url"]

/-- A Python call binds each keyword argument to a formal parameter of
that name; an unmatched keyword raises `TypeError` before the body
runs. -/
def kwargsAccepted (params kwargs : List String) : Bool :=
  kwargs.all (params.contains ·)

/-- The call `scrape_url(url, category=category)` as written in
`run_auto_scraper` (auto_scraper.py line 98).  `env` is what the scrape
body would return for the url if the call were ever entered. -/
def call_scrape_url (env : String → List ScrapedRecord) (u : String)
    (kwargs : List String) : PyRes (List ScrapedRecord) :=
  if kwargsAccepted scrape_url_params kwargs then PyRes.ok (env u)
  else PyRes.exc "TypeError: scrape_url() got an unexpected keyword argument"

/-- Outcome classification for one enabled target (auto_scraper.py lines
96-138): `success` on a non-empty result, `no_products` on an empty
one, `error` when the `try` body raises. -/
def auto_target_status (env : String → List ScrapedRecord) (t : ScrapeTarget) : String :=
  match call_scrape_url env t.url ["category"] with
  | PyRes.exc _ => "error"
  | PyRes.ok ps => if ps.isEmpty then "no_products" else "success"

/-- The per-target statuses recorded in `results['details']` by
`run_auto_scraper` (auto_scraper.py lines 87-138): the enabled targets
in order, each classified by `auto_target_status`. -/
def run_auto_scraper_statuses (env : String → List ScrapedRecord)
    (targets : List ScrapeTarget) : List String :=
  (targets.filter (·.enabled)).map (auto_target_status env)

/-! ### Derived notions used by the statements -/

/-- The value `product['url']` of a record that has the key. -/
def urlOf (r : ScrapedRecord) : String := r.url.getD ""

/-- A record carrying all three keys the happy save path reads. -/
def validRecord (r : ScrapedRecord) : Bool :=
  r.url.isSome && r.name.isSome && r.price.isSome

/-- The immutable part of a product row: primary key and identity key.
Batch updates may touch image, category and timestamp, never these. -/
def triple (q : ProductRow) : Nat × Nat × String :=
  (q.id, q.store_id, q.url)

/-- The `(id, store_id, url)` triples of the product rows a batch of
fresh records inserts, ids assigned serially from `pid0`. -/
def freshTriples (sid : Nat) : Nat → List ScrapedRecord → List (Nat × Nat × String)
  | _, [] => []
  | pid0, r :: rs => (pid0, sid, urlOf r) :: freshTriples sid (pid0 + 1) rs

/-- The id selected by the `(store_id, url)` product lookup, read off the
triple list. -/
def idAtT (ts : List (Nat × Nat × String)) (sid : Nat) (u : String) : Option Nat :=
  (ts.find? (fun t => t.2.1 == sid && t.2.2 == u)).map (·.1)

/-- Number of product rows with identity `(sid, u)`. -/
def countKey (l : List ProductRow) (sid : Nat) (u : String) : Nat :=
  (l.filter (fun q => q.store_id == sid && q.url == u)).length

/-- Version of `countKey` on the triple projection. -/
def countKeyT (ts : List (Nat × Nat × String)) (sid : Nat) (u : String) : Nat :=
  (ts.filter (fun t => t.2.1 == sid && t.2.2 == u)).length

/-- Every url in the list owns exactly one product row of the store. -/
def oneRowPerUrl (db : DB) (sid : Nat) (urls : List (Option String)) : Bool :=
  urls.all fun ou =>
    match ou with
    | some u => countKey db.products sid u == 1
    | none => true

/-- Every product row of the state owns exactly two price rows. -/
def twoPricesPerProduct (db : DB) : Bool :=
  db.products.all (fun q => (pricesFor db q.id).length == 2)

/-! ### Concrete instances for counterexamples and witnesses -/

/-- Batch of three records, the middle one missing the `price` key. -/
def batchC2 : List ScrapedRecord :=
  [{ name := some "A", price := some 10, url := some "u1",
     image := none, category := none, currency := none },
   { name := some "B", price := none, url := some "u2",
     image := none, category := none, currency := none },
   { name := some "C", price := some 20, url := some "u3",
     image := none, category := none, currency := none }]

/-- A store plus one already-scraped product (`last_scraped_at = 5`). -/
def cdbC3 : DB :=
  { stores := [{ id := 1, name := "shop.test", url := "https://shop.test/x" }],
    categories := [],
    products := [{ id := 1, store_id := 1, name := "A", url := "u1", image := none,
                   category_id := none, last_scraped_at := 5 }],
    prices := [], nextStoreId := 2, nextProductId := 2, nextPriceId := 1 }

/-- A re-scrape of the same url carrying neither image nor category. -/
def recC3 : ScrapedRecord :=
  { name := some "A", price := some 10, url := some "u1",
    image := none, category := none, currency := none }

/-- A price table in which the higher id carries the older timestamp. -/
def cdbC5 : DB :=
  { emptyDB with prices :=
      [{ id := 1, product_id := 1, price := 100, currency := "MKD", scraped_at := 10 },
       { id := 2, product_id := 1, price := 50, currency := "MKD", scraped_at := 5 }] }

/-- A price table with timestamps nondecreasing in id. -/
def cdbC5w : DB :=
  { emptyDB with prices :=
      [{ id := 1, product_id := 1, price := 100, currency := "MKD", scraped_at := 5 },
       { id := 2, product_id := 1, price := 50, currency := "MKD", scraped_at := 7 },
       { id := 3, product_id := 2, price := 9, currency := "MKD", scraped_at := 6 }] }

/-- A two-record batch as produced by one scrape of one listing page. -/
def batchC6 : List ScrapedRecord :=
  [{ name := some "A", price := some 10, url := some "u1",
     image := none, category := none, currency := none },
   { name := some "B", price := some 20, url := some "u2",
     image := some "i2", category := none, currency := none }]

/-- A database carrying a product for `(store 1, "u1")`. -/
def cdbC3w : DB :=
  { stores := [{ id := 1, name := "shop.test", url := "https://shop.test/x" }],
    categories := [],
    products := [{ id := 1, store_id := 1, name := "Old", url := "u1", image := some "i",
                   category_id := none, last_scraped_at := 3 }],
    prices := [{ id := 1, product_id := 1, price := 4, currency := "MKD", scraped_at := 3 }],
    nextStoreId := 2, nextProductId := 2, nextPriceId := 2 }

/-- A Neptun container whose price text parses to exactly `0`. -/
def zeroPriceContainer : NContainer :=
  { nameText := some "X", happyPriceText := none, priceNumText := some "0",
    href := none, imgSrc := none }

/-! ### Helper lemmas -/

/-- Store resolution touches only the `stores` table and its counter. -/
theorem get_or_create_store_preserves (db : DB) (url : String) :
    (get_or_create_store db url).2.products = db.products ∧
    (get_or_create_store db url).2.prices = db.prices ∧
    (get_or_create_store db url).2.categories = db.categories ∧
    (get_or_create_store db url).2.nextProductId = db.nextProductId ∧
    (get_or_create_store db url).2.nextPriceId = db.nextPriceId := by
  cases hf : db.stores.find? (fun s => s.name == storeNameOf url) <;>
    simp [get_or_create_store, hf]

/-- Category lookup in an empty `categories` table yields nothing. -/
theorem get_category_id_by_slug_nil (db : DB) (h : db.categories = []) (s : String) :
    get_category_id_by_slug db s = none := by
  unfold get_category_id_by_slug
  rw [h]
  cases s.isEmpty <;> simp [List.find?]

/-- With no batch category and an empty `categories` table no record
resolves a category. -/
theorem lookupCat_none (db : DB) (h : db.categories = []) (r : ScrapedRecord) :
    lookupCat db none r = none := by
  unfold lookupCat
  cases r.category with
  | none => rfl
  | some slug => exact get_category_id_by_slug_nil db h slug

/-  Concrete evaluations shared by the C8 statements. -/

theorem extract_price_c8 : extract_price "1,234.50" = some (617/500 : ℚ) := by
  have h3 : ("1,234.50" : String).isEmpty = false := by decide
  have h1 : (replaceList ",".data ".".data
      (stripChars (replaceList "£".data [] (replaceList "€".data []
        (replaceList "$".data [] ("1,234.50" : String).data))))) =
      ['1', '.', '2', '3', '4', '.', '5', '0'] := by decide
  have h2 : regexSearchNum ['1', '.', '2', '3', '4', '.', '5', '0'] =
      some ['1', '.', '2', '3', '4'] := by decide
  have hI : decIntPart ['1', '.', '2', '3', '4'] = ['1'] := by decide
  have hF : decFracPart ['1', '.', '2', '3', '4'] = ['2', '3', '4'] := by decide
  have hdi : digitsToNat ['1'] = 1 := by decide
  have hdf : digitsToNat ['2', '3', '4'] = 234 := by decide
  rw [extract_price, h3]
  simp only [Bool.false_eq_true, if_false, h1, h2, Option.map_some', parseDecimal,
    hI, hF, hdi, hdf, Option.some.injEq]
  norm_num

theorem genericParsePrice_c8 : genericParsePrice "1,234.50" = some (2469/2 : ℚ) := by
  have h1 : regexSearchNum (replaceList ",".data [] ("1,234.50" : String).data) =
      some ['1', '2', '3', '4', '.', '5', '0'] := by decide
  have hI : decIntPart ['1', '2', '3', '4', '.', '5', '0'] = ['1', '2', '3', '4'] := by decide
  have hF : decFracPart ['1', '2', '3', '4', '.', '5', '0'] = ['5', '0'] := by decide
  have hdi : digitsToNat ['1', '2', '3', '4'] = 1234 := by decide
  have hdf : digitsToNat ['5', '0'] = 50 := by decide
  rw [genericParsePrice, h1]
  simp only [Option.map_some', parseDecimal, hI, hF, hdi, hdf, Option.some.injEq]
  norm_num

/-! ### Claims settled without the batch machinery -/

/-- Claim C1: the orchestrator calls `scrape_url(url, category=category)`,
but `scrape_url` is declared with the single parameter `url`, so the call
raises `TypeError` inside the per-target `try` and every enabled target
is recorded with outcome `error` — regardless of what scraping the url
would have returned.  The claimed `success`/`no_products` outcomes are
unreachable. -/
theorem C1_auto_scraper_records_error_for_every_target
    (env : String → List ScrapedRecord) (targets : List ScrapeTarget) :
    run_auto_scraper_statuses env targets =
      (targets.filter (·.enabled)).map (fun _ => "error") := by
  unfold run_auto_scraper_statuses
  have h : auto_target_status env = fun _ => "error" := funext fun t => rfl
  rw [h]

/-- Claim C4 counterexample: resolving `https://Example.com/x` and then
`https://www.example.com/y` against an empty database yields two
different store ids, because `urlparse(...).netloc` preserves the case
of the domain and the row lookup compares names literally. -/
theorem C4_counterexample :
    (get_or_create_store emptyDB "https://Example.com/x").1 ≠
      (get_or_create_store (get_or_create_store emptyDB "https://Example.com/x").2
        "https://www.example.com/y").1 := by decide

/-- Claim C4 amended: store identity is the domain with scheme and every
`www.` substring stripped but with letter case preserved: the two URLs
create two stores named `Example.com` and `example.com`, and a further
URL whose domain matches `example.com` exactly resolves to the second
store. -/
theorem C4_case_preserving_store_identity :
    ((get_or_create_store (get_or_create_store emptyDB "https://Example.com/x").2
        "https://www.example.com/y").2.stores.map (·.name)) =
      ["Example.com", "example.com"] ∧
    (get_or_create_store (get_or_create_store (get_or_create_store emptyDB
        "https://Example.com/x").2 "https://www.example.com/y").2
        "https://example.com/z").1 =
      (get_or_create_store (get_or_create_store emptyDB "https://Example.com/x").2
        "https://www.example.com/y").1 := by decide

/-- Claim C7: a failure at the batch commit rolls the whole transaction
back — the returned counts are `(0, 0)` and no product or price row of
the batch persists (the separately committed store resolution is the
only surviving effect). -/
theorem C7_commit_failure_rolls_back_whole_batch
    (now : Nat) (db : DB) (batch : List ScrapedRecord) (src : String)
    (slug : Option String) :
    (save_scraped_products now db false batch src slug).1 = (0, 0) ∧
    (save_scraped_products now db false batch src slug).2.products = db.products ∧
    (save_scraped_products now db false batch src slug).2.prices = db.prices := by
  unfold save_scraped_products
  cases hb : batch.isEmpty <;> simp [hb]
  exact ⟨(get_or_create_store_preserves db src).1, (get_or_create_store_preserves db src).2.1⟩

/-- Claim C8 counterexample: the base-class fractional helper
`_extract_price` — the parser implementing the declared
comma-and-period-as-decimal-separator policy — maps `"1,234.50"` to
`1.234`, not to the claimed `1234.50`: the comma is rewritten to a
decimal point and the regex then stops at the second point. -/
theorem C8_counterexample : extract_price "1,234.50" ≠ some (1234.50 : ℚ) := by
  rw [extract_price_c8]
  intro hc
  rw [Option.some.injEq] at hc
  norm_num at hc

/-- Claim C8 amended: `_extract_price` parses `"1,234.50"` to `1.234`
(617/500); the generic scraper's inline fractional parser, which strips
commas before matching, parses `"1,234.50"` to `1234.50`; and the
whole-number policy parser `_parse_price_to_int` parses `"8.999"` to
`8999`. -/
theorem C8_price_parsing_policies :
    extract_price "1,234.50" = some (617/500 : ℚ) ∧
    genericParsePrice "1,234.50" = some (1234.50 : ℚ) ∧
    parse_price_to_int "8.999" = some 8999 := by
  refine ⟨extract_price_c8, ?_, by decide⟩
  rw [genericParsePrice_c8]
  norm_num

/-- Claim C9: for a rendered-fetch scrape, every driver handle held in
`self.driver` when `scrape` returns has been passed to `quit()` by the
`finally` cleanup — on the successful path, the failed-fetch path, the
parse-failure path and the exception path alike. -/
theorem C9_renderer_handle_released (env : RenderEnv) (st : SelState) :
    driverReleased (scrape_rendered env st).2 = true := by
  obtain ⟨nh, dr, qs⟩ := st
  unfold scrape_rendered fetch_with_selenium cleanup_driver driverReleased
  by_cases hc : env.chromeOk
  · by_cases hn : env.navOk <;>
      simp [hc, hn, List.contains, List.elem_eq_mem, List.mem_append]
  · cases dr <;> simp [hc, List.contains, List.elem_eq_mem, List.mem_append]

/-- Claim C10: every record the generic extraction loop or the Neptun
extraction loop emits has a non-empty name and a price different from
`0` — the emission guard `if name and price:` tests Python truthiness —
and in particular a container whose price text parses to exactly `0`
produces no record at all. -/
theorem C10_emitted_records_have_truthy_name_and_price
    (pageUrl : String) (gcs : List GContainer) (ncs : List NContainer) :
    (generic_scrape_records pageUrl gcs).all
        (fun r => !r.name.isEmpty && (r.price != 0)) = true ∧
    (neptun_parse_products pageUrl ncs).all
        (fun r => !r.name.isEmpty && (r.price != 0)) = true ∧
    neptun_parse_products pageUrl [zeroPriceContainer] = [] := by
  refine ⟨?_, ?_, rfl⟩
  · rw [List.all_eq_true]
    intro r hr
    obtain ⟨c, hc, he⟩ := List.mem_filterMap.mp hr
    simp only [genericRecordOf] at he
    split at he
    · split at he
      · rw [Option.some.injEq] at he
        subst he
        assumption
      · exact absurd he (by simp)
    · exact absurd he (by simp)
    · exact absurd he (by simp)
  · rw [List.all_eq_true]
    intro r hr
    obtain ⟨c, hc, he⟩ := List.mem_filterMap.mp hr
    simp only [neptunRecordOf] at he
    split at he
    · split at he
      · rw [Option.some.injEq] at he
        subst he
        assumption
      · exact absurd he (by simp)
    · exact absurd he (by simp)
    · exact absurd he (by simp)

/-! ### Claim C2 — missing `price` key in a batch of three -/

/-- Claim C2 counterexample: a batch of three records whose middle record
lacks the `price` key, saved against an empty database, reports
`(3, 2)`, not the claimed `(2, 2)`: the product row of the price-less
record is inserted and counted before `product['price']` raises. -/
theorem C2_counterexample :
    (save_scraped_products 7 emptyDB true batchC2 "https://shop.test/list" none).1 ≠
      (2, 2) := by decide

/-- Claim C2 amended: for a batch of three records with pairwise distinct
urls in which exactly one record lacks the `price` key and the other two
are new products, `saveBatch` returns `(3, 2)` and does not roll back —
the `KeyError` on `product['price']` fires only after the product insert
was already performed and counted, so the price-less record still
creates (and counts) a product row while appending no price row. -/
theorem C2_missing_price_record_still_creates_its_product
    (now : Nat) (src n1 n2 n3 u1 u2 u3 : String) (q1 q3 : ℚ)
    (h12 : u1 ≠ u2) (h13 : u1 ≠ u3) (h23 : u2 ≠ u3) :
    (save_scraped_products now emptyDB true
      [{ name := some n1, price := some q1, url := some u1,
         image := none, category := none, currency := none },
       { name := some n2, price := none, url := some u2,
         image := none, category := none, currency := none },
       { name := some n3, price := some q3, url := some u3,
         image := none, category := none, currency := none }] src none).1 = (3, 2) ∧
    (save_scraped_products now emptyDB true
      [{ name := some n1, price := some q1, url := some u1,
         image := none, category := none, currency := none },
       { name := some n2, price := none, url := some u2,
         image := none, category := none, currency := none },
       { name := some n3, price := some q3, url := some u3,
         image := none, category := none, currency := none }] src none).2.products.length
      = 3 ∧
    (save_scraped_products now emptyDB true
      [{ name := some n1, price := some q1, url := some u1,
         image := none, category := none, currency := none },
       { name := some n2, price := none, url := some u2,
         image := none, category := none, currency := none },
       { name := some n3, price := some q3, url := some u3,
         image := none, category := none, currency := none }] src none).2.prices.length
      = 2 := by
  have e12 : (u1 == u2) = false := beq_eq_false_iff_ne.mpr h12
  have e13 : (u1 == u3) = false := beq_eq_false_iff_ne.mpr h13
  have e23 : (u2 == u3) = false := beq_eq_false_iff_ne.mpr h23
  refine ⟨?_, ?_, ?_⟩ <;>
    simp [save_scraped_products, get_or_create_store, get_category_id_by_slug,
      lookupCat, findByKey, processRecord, truthyStr, emptyDB, List.find?,
      e12, e13, e23]

/-- Claim C2 amended, witnessed at a concrete batch. -/
theorem C2_missing_price_record_still_creates_its_product_witness :
    ("u1" : String) ≠ "u2" ∧ ("u1" : String) ≠ "u3" ∧ ("u2" : String) ≠ "u3" ∧
    (save_scraped_products 7 emptyDB true
      [{ name := some "A", price := some 10, url := some "u1",
         image := none, category := none, currency := none },
       { name := some "B", price := none, url := some "u2",
         image := none, category := none, currency := none },
       { name := some "C", price := some 20, url := some "u3",
         image := none, category := none, currency := none }]
      "https://shop.test/list" none).1 = (3, 2) :=
  ⟨by decide, by decide, by decide,
   (C2_missing_price_record_still_creates_its_product 7 "https://shop.test/list"
      "A" "B" "C" "u1" "u2" "u3" 10 20
      (by decide) (by decide) (by decide)).1⟩

/-! ### Claim C3 — `last_scraped_at` refresh -/

/-- Claim C3 counterexample: re-scraping an existing product with a
record carrying neither image nor category leaves `last_scraped_at` at
its old value `5` instead of the scrape time `9` — the `UPDATE` carrying
`last_scraped_at = CURRENT_TIMESTAMP` only runs when some field update
is present. -/
theorem C3_counterexample :
    ((save_scraped_products 9 cdbC3 true [recC3] "https://shop.test/x" none).2.products.map
        (·.last_scraped_at)) = [5] ∧
    (5 : Nat) ≠ 9 := by decide

/-- Claim C3 amended: when a batch record matches an existing product but
carries no image and no category (and the batch has no category slug),
the save leaves the product rows — including `last_scraped_at` —
completely unchanged; only a price row is appended.  `last_scraped_at`
is refreshed only together with an image or category field update. -/
theorem C3_no_field_update_no_timestamp_refresh
    (now : Nat) (db : DB) (src u nm : String) (q : ℚ) (sid : Nat) (row : ProductRow)
    (hsid : (get_or_create_store db src).1 = sid)
    (hfound : findByKey db.products sid u = some row) :
    (save_scraped_products now db true
      [{ name := some nm, price := some q, url := some u,
         image := none, category := none, currency := none }] src none).2.products
      = db.products := by
  obtain ⟨hp, hpr, hc, hnp, hnpr⟩ := get_or_create_store_preserves db src
  simp [save_scraped_products, processRecord, lookupCat, truthyStr,
    hp, hsid, hfound]

/-- Claim C3 amended, witnessed at a concrete database. -/
theorem C3_no_field_update_no_timestamp_refresh_witness :
    (get_or_create_store cdbC3w "https://shop.test/x").1 = 1 ∧
    findByKey cdbC3w.products 1 "u1" =
      some { id := 1, store_id := 1, name := "Old", url := "u1", image := some "i",
             category_id := none, last_scraped_at := 3 } ∧
    (save_scraped_products 11 cdbC3w true
      [{ name := some "A", price := some 10, url := some "u1",
         image := none, category := none, currency := none }]
      "https://shop.test/x" none).2.products = cdbC3w.products :=
  ⟨by decide, by decide,
   C3_no_field_update_no_timestamp_refresh 11 cdbC3w "https://shop.test/x" "u1" "A" 10 1
     { id := 1, store_id := 1, name := "Old", url := "u1", image := some "i",
       category_id := none, last_scraped_at := 3 }
     (by decide) (by decide)⟩

/-! ### Claim C5 — latest-price selection -/

/-- On a price list sorted by id with the accumulator below every
element, the max-id fold of `listRecentPrice` returns the last row. -/
theorem maxIdFold_sorted (l : List PriceRow) (b : PriceRow)
    (hall : ∀ r ∈ l, b.id < r.id)
    (hpw : l.Pairwise (fun a c => a.id < c.id)) :
    l.foldl (fun acc r =>
      match acc with
      | none => some r
      | some b => if b.id < r.id then some r else some b) (some b)
      = some (l.getLastD b) := by
  induction l generalizing b with
  | nil => rfl
  | cons r l ih =>
    have hb : b.id < r.id := hall r (by simp)
    rw [List.foldl_cons, List.getLastD_cons]
    simp only [hb, if_true]
    exact ih r (fun x hx => (List.pairwise_cons.mp hpw).1 x hx)
      (List.pairwise_cons.mp hpw).2

/-- The lexicographic fold of `specMostRecentPrice` on a list sorted by
id with nondecreasing timestamps also returns the last row. -/
theorem specFold_sorted (l : List PriceRow) (b : PriceRow)
    (hall : ∀ r ∈ l, b.id < r.id ∧ b.scraped_at ≤ r.scraped_at)
    (hpw : l.Pairwise (fun a c => a.id < c.id ∧ a.scraped_at ≤ c.scraped_at)) :
    l.foldl (fun acc r =>
      match acc with
      | none => some r
      | some b =>
        if b.scraped_at < r.scraped_at ∨ (b.scraped_at = r.scraped_at ∧ b.id < r.id)
        then some r else some b) (some b)
      = some (l.getLastD b) := by
  induction l generalizing b with
  | nil => rfl
  | cons r l ih =>
    have hb := hall r (by simp)
    have hcond : b.scraped_at < r.scraped_at ∨
        (b.scraped_at = r.scraped_at ∧ b.id < r.id) := by
      rcases lt_or_eq_of_le hb.2 with h | h
      · exact Or.inl h
      · exact Or.inr ⟨h, hb.1⟩
    rw [List.foldl_cons, List.getLastD_cons]
    simp only [hcond, if_true]
    exact ih r (fun x hx => (List.pairwise_cons.mp hpw).1 x hx)
      (List.pairwise_cons.mp hpw).2

/-- The strict-max fold of `searchLatestPrice` on a list with
nondecreasing timestamps returns a row carrying the last timestamp
(ties may keep an earlier row, so only the timestamp is determined). -/
theorem searchFold_sorted (l : List PriceRow) (b : PriceRow)
    (hall : ∀ r ∈ l, b.scraped_at ≤ r.scraped_at)
    (hpw : l.Pairwise (fun a c => a.scraped_at ≤ c.scraped_at)) :
    (l.foldl (fun acc r =>
      match acc with
      | none => some r
      | some b => if b.scraped_at < r.scraped_at then some r else some b) (some b)).map
        (·.scraped_at)
      = some ((l.getLastD b).scraped_at) := by
  induction l generalizing b with
  | nil => rfl
  | cons r l ih =>
    rw [List.foldl_cons, List.getLastD_cons]
    by_cases hbr : b.scraped_at < r.scraped_at
    · simp only [hbr, if_true]
      exact ih r (fun x hx => (List.pairwise_cons.mp hpw).1 x hx)
        (List.pairwise_cons.mp hpw).2
    · have heq : b.scraped_at = r.scraped_at :=
        le_antisymm (hall r (by simp)) (not_lt.mp hbr)
      simp only [hbr, if_false]
      have hall2 : ∀ x ∈ l, b.scraped_at ≤ x.scraped_at := fun x hx =>
        heq ▸ (List.pairwise_cons.mp hpw).1 x hx
      rw [ih b hall2 (List.pairwise_cons.mp hpw).2]
      cases l with
      | nil => simpa using heq
      | cons y l2 => rw [List.getLastD_cons, List.getLastD_cons]

/-- Claim C5 counterexample: on a price table whose higher id carries
the older timestamp, `list_recent_products` (max id) selects a row
different from the spec's most-recent price (max `scraped_at`, ties to
highest id). -/
theorem C5_counterexample :
    listRecentPrice cdbC5 1 ≠ specMostRecentPrice cdbC5 1 := by decide

/-- Claim C5 amended: `list_recent_products` selects the price row with
the maximum id, and `search_products` a row with the maximum
`scraped_at` (tie-break among equal timestamps unspecified).  Whenever a
product's price rows, in table order, have strictly increasing ids and
nondecreasing timestamps — the invariant append-only insertion with
`CURRENT_TIMESTAMP` maintains — the max-id row is exactly the spec's
most-recent price, and the search row carries the same timestamp. -/
theorem C5_most_recent_price_under_monotone_timestamps
    (db : DB) (pid : Nat)
    (hs : (pricesFor db pid).Pairwise
      (fun a b => a.id < b.id ∧ a.scraped_at ≤ b.scraped_at)) :
    listRecentPrice db pid = specMostRecentPrice db pid ∧
    (searchLatestPrice db pid).map (·.scraped_at) =
      (specMostRecentPrice db pid).map (·.scraped_at) := by
  unfold listRecentPrice specMostRecentPrice searchLatestPrice
  cases hl : pricesFor db pid with
  | nil => simp
  | cons b l =>
    rw [hl] at hs
    obtain ⟨hb, hpw⟩ := List.pairwise_cons.mp hs
    simp only [List.foldl_cons]
    rw [maxIdFold_sorted l b (fun x hx => (hb x hx).1)
          (hpw.imp fun h => h.1),
        specFold_sorted l b hb hpw,
        searchFold_sorted l b (fun x hx => (hb x hx).2)
          (hpw.imp fun h => h.2)]
    exact ⟨rfl, rfl⟩

/-- Claim C5 amended, witnessed at a concrete monotone price table. -/
theorem C5_most_recent_price_witness :
    (pricesFor cdbC5w 1).Pairwise
      (fun a b => a.id < b.id ∧ a.scraped_at ≤ b.scraped_at) ∧
    (listRecentPrice cdbC5w 1 = specMostRecentPrice cdbC5w 1 ∧
     (searchLatestPrice cdbC5w 1).map (·.scraped_at) =
       (specMostRecentPrice cdbC5w 1).map (·.scraped_at)) :=
  ⟨by decide, C5_most_recent_price_under_monotone_timestamps cdbC5w 1 (by decide)⟩

/-! ### Claim C6 — lemmas about the batch loop -/

/-- The product lookup's id is determined by the triple projection. -/
theorem findByKey_map_id (l : List ProductRow) (sid : Nat) (u : String) :
    (findByKey l sid u).map (·.id) = idAtT (l.map triple) sid u := by
  induction l with
  | nil => rfl
  | cons q l ih =>
    cases h : (q.store_id == sid && q.url == u) with
    | true => simp [findByKey, idAtT, List.find?_cons, triple, h]
    | false =>
      simp only [findByKey, idAtT, List.map_cons, List.find?_cons, triple, h]
      exact ih

/-- The identity-key count is determined by the triple projection. -/
theorem countKey_eq_countKeyT (l : List ProductRow) (sid : Nat) (u : String) :
    countKey l sid u = countKeyT (l.map triple) sid u := by
  induction l with
  | nil => rfl
  | cons q l ih =>
    cases h : (q.store_id == sid && q.url == u) with
    | true => simp [countKey, countKeyT, List.filter_cons, triple, h] at ih ⊢; omega
    | false => simpa [countKey, countKeyT, List.filter_cons, triple, h] using ih

/-- A row-wise transformation preserving id, store and url preserves the
triple projection of the table. -/
theorem mapTriple_preserved (l : List ProductRow) (f : ProductRow → ProductRow)
    (hf : ∀ q, triple (f q) = triple q) :
    (l.map f).map triple = l.map triple := by
  induction l with
  | nil => rfl
  | cons q l ih => simp [hf q, ih]

theorem freshTriples_length (sid : Nat) (rs : List ScrapedRecord) :
    ∀ pid0, (freshTriples sid pid0 rs).length = rs.length := by
  induction rs with
  | nil => intro pid0; rfl
  | cons r rs ih => intro pid0; simp [freshTriples, ih (pid0 + 1)]

/-- Ids of freshly inserted rows lie in the assigned serial range, and
their store is the batch store. -/
theorem freshTriples_mem (sid : Nat) (rs : List ScrapedRecord) :
    ∀ pid0 t, t ∈ freshTriples sid pid0 rs →
      pid0 ≤ t.1 ∧ t.1 < pid0 + rs.length ∧ t.2.1 = sid := by
  induction rs with
  | nil => intro pid0 t ht; simp [freshTriples] at ht
  | cons r rs ih =>
    intro pid0 t ht
    rw [freshTriples, List.mem_cons] at ht
    rcases ht with h | h
    · subst h
      refine ⟨Nat.le_refl _, ?_, rfl⟩
      show pid0 < pid0 + (r :: rs).length
      rw [List.length_cons]
      omega
    · obtain ⟨h1, h2, h3⟩ := ih (pid0 + 1) t h
      refine ⟨by omega, ?_, h3⟩
      rw [List.length_cons]
      omega

/-- Each serial id in the assigned range owns exactly one fresh row. -/
theorem freshTriples_countP_id (sid : Nat) (rs : List ScrapedRecord) :
    ∀ pid0 pid, (freshTriples sid pid0 rs).countP (fun t => t.1 == pid) =
      if pid0 ≤ pid ∧ pid < pid0 + rs.length then 1 else 0 := by
  induction rs with
  | nil =>
    intro pid0 pid
    rw [freshTriples]
    simp only [List.countP_nil, List.length_nil]
    split <;> omega
  | cons r rs ih =>
    intro pid0 pid
    rw [freshTriples, List.countP_cons, ih (pid0 + 1) pid]
    simp only [beq_iff_eq, List.length_cons]
    split_ifs <;> omega

/-- The fresh-row count for an identity key is the number of batch
records carrying that url. -/
theorem freshTriples_countKeyT (sid : Nat) (rs : List ScrapedRecord) (u : String) :
    ∀ pid0, countKeyT (freshTriples sid pid0 rs) sid u =
      rs.countP (fun r => urlOf r == u) := by
  induction rs with
  | nil => intro pid0; rfl
  | cons r rs ih =>
    intro pid0
    rw [freshTriples, List.countP_cons]
    unfold countKeyT at ih ⊢
    rw [List.filter_cons]
    cases h : (urlOf r == u) with
    | true => simp [h, ih (pid0 + 1)]
    | false => simp [h, ih (pid0 + 1)]

/-- Every batch record finds a row among the rows the batch inserted. -/
theorem freshTriples_idAtT_isSome (sid : Nat) (rs : List ScrapedRecord) :
    ∀ pid0 r, r ∈ rs →
      (idAtT (freshTriples sid pid0 rs) sid (urlOf r)).isSome = true := by
  induction rs with
  | nil => intro pid0 r hr; simp at hr
  | cons r0 rs ih =>
    intro pid0 r hr
    rw [freshTriples]
    unfold idAtT
    rw [List.find?_cons]
    cases h : ((pid0, sid, urlOf r0).2.1 == sid && (pid0, sid, urlOf r0).2.2 == urlOf r) with
    | true => simp [h]
    | false =>
      rcases List.mem_cons.mp hr with rfl | hmem
      · simp [beq_self_eq_true] at h
      · simpa [idAtT, h] using ih (pid0 + 1) r hmem

/-- Valid records expose their url. -/
theorem validRecord_url (r : ScrapedRecord) (h : validRecord r = true) :
    ∃ u, r.url = some u := by
  unfold validRecord at h
  obtain ⟨h1, -⟩ := Bool.and_eq_true_iff.mp (Bool.and_eq_true_iff.mp h).1
  exact Option.isSome_iff_exists.mp h1

/-- Valid records expose their name. -/
theorem validRecord_name (r : ScrapedRecord) (h : validRecord r = true) :
    ∃ nm, r.name = some nm := by
  unfold validRecord at h
  obtain ⟨-, h2⟩ := Bool.and_eq_true_iff.mp (Bool.and_eq_true_iff.mp h).1
  exact Option.isSome_iff_exists.mp h2

/-- Valid records expose their price. -/
theorem validRecord_price (r : ScrapedRecord) (h : validRecord r = true) :
    ∃ q, r.price = some q := by
  unfold validRecord at h
  exact Option.isSome_iff_exists.mp (Bool.and_eq_true_iff.mp h).2

/-- Exactly one serial id in the fresh range is matched by the lookups
of a re-processed batch with distinct urls. -/
theorem freshTriples_countP_idAtT (sid : Nat) (rs : List ScrapedRecord) :
    ∀ pid0 pid, rs.all validRecord = true →
      (rs.map ScrapedRecord.url).Nodup →
      rs.countP (fun r => idAtT (freshTriples sid pid0 rs) sid (urlOf r) == some pid) =
        if pid0 ≤ pid ∧ pid < pid0 + rs.length then 1 else 0 := by
  induction rs with
  | nil =>
    intro pid0 pid _ _
    simp only [List.countP_nil, List.length_nil]
    split <;> omega
  | cons r0 rs ih =>
    intro pid0 pid hval hnodup
    rw [List.all_cons] at hval
    obtain ⟨hv0, hvrs⟩ := Bool.and_eq_true_iff.mp hval
    rw [List.map_cons] at hnodup
    obtain ⟨hnmem, hnd⟩ := List.nodup_cons.mp hnodup
    obtain ⟨u0, hu0⟩ := validRecord_url r0 hv0
    have hhead : idAtT (freshTriples sid pid0 (r0 :: rs)) sid (urlOf r0) = some pid0 := by
      rw [freshTriples]
      unfold idAtT
      rw [List.find?_cons]
      simp
    have htail : ∀ r ∈ rs,
        (idAtT (freshTriples sid pid0 (r0 :: rs)) sid (urlOf r) == some pid) =
        (idAtT (freshTriples sid (pid0 + 1) rs) sid (urlOf r) == some pid) := by
      intro r hr
      obtain ⟨u, hu⟩ := validRecord_url r (List.all_eq_true.mp hvrs r hr)
      have hne : u ≠ u0 := by
        intro he
        apply hnmem
        rw [hu0, ← he, ← hu]
        exact List.mem_map_of_mem ScrapedRecord.url hr
      have hp : ((pid0, sid, urlOf r0).2.1 == sid && (pid0, sid, urlOf r0).2.2 == urlOf r)
          = false := by
        simp [urlOf, hu0, hu]
        intro he
        exact absurd he.symm hne
      rw [freshTriples]
      unfold idAtT
      rw [List.find?_cons, hp]
    rw [List.countP_cons]
    rw [List.countP_congr (fun r hr => by rw [htail r hr]), ih (pid0 + 1) pid hvrs hnd]
    simp only [hhead, beq_iff_eq, Option.some.injEq, List.length_cons]
    split_ifs <;> omega

/-- With pairwise distinct urls, exactly one batch record carries a
given url of the batch. -/
theorem countP_urlOf_unique (rs : List ScrapedRecord) (u : String)
    (hval : rs.all validRecord = true) (hnodup : (rs.map ScrapedRecord.url).Nodup)
    (hmem : some u ∈ rs.map ScrapedRecord.url) :
    rs.countP (fun r => urlOf r == u) = 1 := by
  induction rs with
  | nil => simp at hmem
  | cons r0 rs ih =>
    rw [List.all_cons] at hval
    obtain ⟨hv0, hvrs⟩ := Bool.and_eq_true_iff.mp hval
    rw [List.map_cons] at hmem hnodup
    obtain ⟨hnmem, hnd⟩ := List.nodup_cons.mp hnodup
    obtain ⟨u0, hu0⟩ := validRecord_url r0 hv0
    rw [List.countP_cons]
    rcases List.mem_cons.mp hmem with heq | hmem2
    · have hp : (urlOf r0 == u) = true := by
        simp [urlOf, hu0]
        have : some u0 = some u := hu0 ▸ heq.symm
        exact (Option.some.injEq u0 u ▸ this : u0 = u)
      have hz : rs.countP (fun r => urlOf r == u) = 0 := by
        rw [List.countP_eq_zero]
        intro r hr
        obtain ⟨ur, hur⟩ := validRecord_url r (List.all_eq_true.mp hvrs r hr)
        simp [urlOf, hur]
        intro he
        apply hnmem
        rw [← heq, ← he, ← hur]
        exact List.mem_map_of_mem ScrapedRecord.url hr
      rw [hz, hp]
      simp
    · have hne : u0 ≠ u := by
        intro he
        apply hnmem
        rw [hu0, he]
        exact hmem2
      have hp : (urlOf r0 == u) = false := by
        simp [urlOf, hu0]
        exact hne
      rw [hp, ih hvrs hnd hmem2]
      simp

/-- One loop iteration on a valid record whose url is not yet present:
the insert branch appends one product row and one price row and bumps
both counters. -/
theorem processRecord_insert_eq (now sid : Nat) (st : SaveState) (r : ScrapedRecord)
    (u nm : String) (q : ℚ)
    (hu : r.url = some u) (hn : r.name = some nm) (hq : r.price = some q)
    (hcat : st.db.categories = [])
    (hmiss : findByKey st.db.products sid u = none) :
    processRecord now sid none st r =
      { db := { st.db with
                  products := st.db.products ++
                    [{ id := st.db.nextProductId, store_id := sid, name := nm, url := u,
                       image := r.image, category_id := none, last_scraped_at := now }],
                  prices := st.db.prices ++
                    [{ id := st.db.nextPriceId, product_id := st.db.nextProductId,
                       price := q, currency := r.currency.getD "MKD", scraped_at := now }],
                  nextProductId := st.db.nextProductId + 1,
                  nextPriceId := st.db.nextPriceId + 1 },
        productsSaved := st.productsSaved + 1,
        pricesSaved := st.pricesSaved + 1 } := by
  have hlc : lookupCat st.db none r = none := lookupCat_none st.db hcat r
  simp [processRecord, hu, hn, hq, hlc, hmiss]

/-- One loop iteration on a valid record whose url already owns a row:
the product table keeps its triples (updates touch image, category and
timestamp only), one price row is appended for the found row's id, and
only the price counter moves. -/
theorem processRecord_found_eq (now sid : Nat) (st : SaveState) (r : ScrapedRecord)
    (u : String) (q : ℚ) (row : ProductRow)
    (hu : r.url = some u) (hq : r.price = some q)
    (hcat : st.db.categories = [])
    (hfound : findByKey st.db.products sid u = some row) :
    ∃ P : List ProductRow,
      P.map triple = st.db.products.map triple ∧
      processRecord now sid none st r =
        { db := { st.db with
                    products := P,
                    prices := st.db.prices ++
                      [{ id := st.db.nextPriceId, product_id := row.id, price := q,
                         currency := r.currency.getD "MKD", scraped_at := now }],
                    nextPriceId := st.db.nextPriceId + 1 },
          productsSaved := st.productsSaved,
          pricesSaved := st.pricesSaved + 1 } := by
  have hlc : lookupCat st.db none r = none := lookupCat_none st.db hcat r
  cases hImg : truthyStr r.image with
  | false =>
    refine ⟨st.db.products, rfl, ?_⟩
    simp [processRecord, hu, hq, hlc, hfound, hImg]
  | true =>
    refine ⟨st.db.products.map (fun p =>
      if p.id == row.id then
        { p with image := r.image, last_scraped_at := now }
      else p), mapTriple_preserved _ _ ?_, ?_⟩
    · intro p
      by_cases h : (p.id == row.id) = true <;> simp [h, triple]
    · simp [processRecord, hu, hq, hlc, hfound, hImg]

/-- The record loop over a batch of valid, pairwise-distinct-url records
none of which is present yet: it appends exactly the fresh rows (one
product and one price per record) and counts every record in both
counters. -/
theorem save_loop_insert (now sid : Nat) (rs : List ScrapedRecord) :
    ∀ st : SaveState, rs.all validRecord = true → st.db.categories = [] →
      (∀ r ∈ rs, findByKey st.db.products sid (urlOf r) = none) →
      (rs.map ScrapedRecord.url).Nodup →
      ((rs.foldl (processRecord now sid none) st).db.products.map triple =
         st.db.products.map triple ++ freshTriples sid st.db.nextProductId rs ∧
       (∀ pid, (pricesFor (rs.foldl (processRecord now sid none) st).db pid).length =
          (pricesFor st.db pid).length +
            (freshTriples sid st.db.nextProductId rs).countP (fun t => t.1 == pid)) ∧
       (rs.foldl (processRecord now sid none) st).db.categories = st.db.categories ∧
       (rs.foldl (processRecord now sid none) st).db.stores = st.db.stores ∧
       (rs.foldl (processRecord now sid none) st).productsSaved =
         st.productsSaved + rs.length ∧
       (rs.foldl (processRecord now sid none) st).pricesSaved =
         st.pricesSaved + rs.length) := by
  induction rs with
  | nil =>
    intro st _ _ _ _
    simp [freshTriples]
  | cons r rs ih =>
    intro st hval hcat hmiss hnodup
    rw [List.all_cons] at hval
    obtain ⟨hv0, hvrs⟩ := Bool.and_eq_true_iff.mp hval
    rw [List.map_cons] at hnodup
    obtain ⟨hnmem, hnd⟩ := List.nodup_cons.mp hnodup
    obtain ⟨u, hu⟩ := validRecord_url r hv0
    obtain ⟨nm, hn⟩ := validRecord_name r hv0
    obtain ⟨q, hq⟩ := validRecord_price r hv0
    have hmiss0 : findByKey st.db.products sid u = none := by
      have h := hmiss r (by simp)
      rwa [urlOf, hu, Option.getD_some] at h
    rw [List.foldl_cons,
        processRecord_insert_eq now sid st r u nm q hu hn hq hcat hmiss0]
    have hmiss1 : ∀ r2 ∈ rs,
        findByKey (st.db.products ++
          [{ id := st.db.nextProductId, store_id := sid, name := nm, url := u,
             image := r.image, category_id := none, last_scraped_at := now }]) sid
          (urlOf r2) = none := by
      intro r2 hr2
      obtain ⟨u2, hu2⟩ := validRecord_url r2 (List.all_eq_true.mp hvrs r2 hr2)
      have hne : u ≠ u2 := by
        intro he
        apply hnmem
        rw [hu, he, ← hu2]
        exact List.mem_map_of_mem ScrapedRecord.url hr2
      have h1 : findByKey st.db.products sid (urlOf r2) = none := hmiss r2 (by simp [hr2])
      unfold findByKey at h1 ⊢
      rw [List.find?_append, h1]
      simp [urlOf, hu2, hne]
    obtain ⟨ih1, ih2, ih3, ih4, ih5, ih6⟩ :=
      ih { db := { st.db with
                     products := st.db.products ++
                       [{ id := st.db.nextProductId, store_id := sid, name := nm, url := u,
                          image := r.image, category_id := none, last_scraped_at := now }],
                     prices := st.db.prices ++
                       [{ id := st.db.nextPriceId, product_id := st.db.nextProductId,
                          price := q, currency := r.currency.getD "MKD", scraped_at := now }],
                     nextProductId := st.db.nextProductId + 1,
                     nextPriceId := st.db.nextPriceId + 1 },
           productsSaved := st.productsSaved + 1,
           pricesSaved := st.pricesSaved + 1 } hvrs hcat hmiss1 hnd
    refine ⟨?_, ?_, ?_, ?_, ?_, ?_⟩
    · rw [ih1]
      simp only [List.map_append, List.map_cons, List.map_nil]
      rw [freshTriples]
      simp [triple, urlOf, hu, List.append_assoc]
    · intro pid
      rw [ih2 pid, freshTriples, List.countP_cons]
      simp only [pricesFor, List.filter_append, List.filter_cons, List.filter_nil,
        List.length_append]
      cases h : (st.db.nextProductId == pid) with
      | true => simp [h] <;> omega
      | false => simp [h] <;> omega
    · exact ih3
    · exact ih4
    · rw [ih5]; simp [List.length_cons]; omega
    · rw [ih6]; simp [List.length_cons]; omega

/-- The record loop over a batch of valid records all of which already
own a row: no product row is created or re-keyed, one price row is
appended per record at the id its url resolves to, and only the price
counter moves. -/
theorem save_loop_update (now sid : Nat) (rs : List ScrapedRecord) :
    ∀ st : SaveState, rs.all validRecord = true → st.db.categories = [] →
      (∀ r ∈ rs, ∃ row, findByKey st.db.products sid (urlOf r) = some row) →
      ((rs.foldl (processRecord now sid none) st).db.products.map triple =
         st.db.products.map triple ∧
       (∀ pid, (pricesFor (rs.foldl (processRecord now sid none) st).db pid).length =
          (pricesFor st.db pid).length +
            rs.countP (fun r =>
              idAtT (st.db.products.map triple) sid (urlOf r) == some pid)) ∧
       (rs.foldl (processRecord now sid none) st).db.categories = st.db.categories ∧
       (rs.foldl (processRecord now sid none) st).db.stores = st.db.stores ∧
       (rs.foldl (processRecord now sid none) st).productsSaved = st.productsSaved ∧
       (rs.foldl (processRecord now sid none) st).pricesSaved =
         st.pricesSaved + rs.length) := by
  induction rs with
  | nil =>
    intro st _ _ _
    simp
  | cons r rs ih =>
    intro st hval hcat hfound
    rw [List.all_cons] at hval
    obtain ⟨hv0, hvrs⟩ := Bool.and_eq_true_iff.mp hval
    obtain ⟨u, hu⟩ := validRecord_url r hv0
    obtain ⟨q, hq⟩ := validRecord_price r hv0
    obtain ⟨row, hrow⟩ := hfound r (by simp)
    rw [urlOf, hu, Option.getD_some] at hrow
    obtain ⟨P, hP, hstep⟩ := processRecord_found_eq now sid st r u q row hu hq hcat hrow
    rw [List.foldl_cons, hstep]
    have hfound1 : ∀ r2 ∈ rs, ∃ row2, findByKey P sid (urlOf r2) = some row2 := by
      intro r2 hr2
      obtain ⟨row2, hrow2⟩ := hfound r2 (by simp [hr2])
      have hid : (findByKey P sid (urlOf r2)).map (·.id) = some row2.id := by
        rw [findByKey_map_id, hP, ← findByKey_map_id, hrow2, Option.map_some']
      obtain ⟨row3, hrow3, -⟩ := Option.map_eq_some'.mp hid
      exact ⟨row3, hrow3⟩
    obtain ⟨ih1, ih2, ih3, ih4, ih5, ih6⟩ :=
      ih { db := { st.db with
                     products := P,
                     prices := st.db.prices ++
                       [{ id := st.db.nextPriceId, product_id := row.id, price := q,
                          currency := r.currency.getD "MKD", scraped_at := now }],
                     nextPriceId := st.db.nextPriceId + 1 },
           productsSaved := st.productsSaved,
           pricesSaved := st.pricesSaved + 1 } hvrs hcat hfound1
    refine ⟨?_, ?_, ?_, ?_, ?_, ?_⟩
    · rw [ih1]
      exact hP
    · intro pid
      rw [ih2 pid, List.countP_cons]
      simp only [hP]
      have hidr : idAtT (st.db.products.map triple) sid (urlOf r) = some row.id := by
        rw [← findByKey_map_id, urlOf, hu, Option.getD_some, hrow, Option.map_some']
      simp only [pricesFor, List.filter_append, List.filter_cons, List.filter_nil,
        List.length_append, hidr]
      cases h : (row.id == pid) with
      | true =>
        have h2 : ((some row.id : Option Nat) == some pid) = true := by
          rw [beq_iff_eq] at h ⊢
          rw [h]
        simp [h, h2] <;> omega
      | false =>
        have h2 : ((some row.id : Option Nat) == some pid) = false := by
          rw [beq_eq_false_iff_ne] at h ⊢
          intro he
          exact h (Option.some.injEq _ _ ▸ he)
        simp [h, h2] <;> omega
    · exact ih3
    · exact ih4
    · exact ih5
    · rw [ih6]; simp [List.length_cons]; omega

/-- Unfolding of a committed batch save through a resolved store. -/
theorem save_unfold (now : Nat) (db : DB) (batch : List ScrapedRecord) (src : String)
    (hbe : batch.isEmpty = false) (sid : Nat) (dbS : DB)
    (hg : get_or_create_store db src = (sid, dbS)) :
    save_scraped_products now db true batch src none =
      (((batch.foldl (processRecord now sid none)
            { db := dbS, productsSaved := 0, pricesSaved := 0 }).productsSaved,
        (batch.foldl (processRecord now sid none)
            { db := dbS, productsSaved := 0, pricesSaved := 0 }).pricesSaved),
       (batch.foldl (processRecord now sid none)
            { db := dbS, productsSaved := 0, pricesSaved := 0 }).db) := by
  unfold save_scraped_products
  rw [hbe, hg]
  simp

/-- Claim C6: saving the same valid batch (pairwise distinct urls) twice
from an empty database creates exactly one product row per distinct
`(storeId, url)` — the second save inserts nothing — while every save
appends one price row per record, so each product ends with two price
rows. -/
theorem C6_idempotent_rescrape
    (now1 now2 : Nat) (batch : List ScrapedRecord) (src : String)
    (hval : batch.all validRecord = true)
    (hnodup : (batch.map ScrapedRecord.url).Nodup) :
    (save_scraped_products now2 (save_scraped_products now1 emptyDB true batch src none).2
        true batch src none).2.products.length =
      (save_scraped_products now1 emptyDB true batch src none).2.products.length ∧
    (save_scraped_products now1 emptyDB true batch src none).2.products.length
      = batch.length ∧
    oneRowPerUrl (save_scraped_products now2
        (save_scraped_products now1 emptyDB true batch src none).2 true batch src none).2
      (get_or_create_store emptyDB src).1 (batch.map ScrapedRecord.url) = true ∧
    twoPricesPerProduct (save_scraped_products now2
        (save_scraped_products now1 emptyDB true batch src none).2 true batch src none).2
      = true := by
  by_cases hb : batch = []
  · subst hb
    exact ⟨rfl, rfl, rfl, rfl⟩
  · have hbe : batch.isEmpty = false := by
      cases batch with
      | nil => exact absurd rfl hb
      | cons a l => rfl
    have hg1 : get_or_create_store emptyDB src =
        (1, { stores := [{ id := 1, name := storeNameOf src, url := src }],
              categories := [], products := [], prices := [],
              nextStoreId := 2, nextProductId := 1, nextPriceId := 1 }) := rfl
    obtain ⟨ins1, ins2, ins3, ins4, ins5, ins6⟩ :=
      save_loop_insert now1 1 batch
        { db := { stores := [{ id := 1, name := storeNameOf src, url := src }],
                  categories := [], products := [], prices := [],
                  nextStoreId := 2, nextProductId := 1, nextPriceId := 1 },
          productsSaved := 0, pricesSaved := 0 }
        hval rfl (fun r _ => rfl) hnodup
    set F1 : SaveState := batch.foldl (processRecord now1 1 none)
      { db := { stores := [{ id := 1, name := storeNameOf src, url := src }],
                categories := [], products := [], prices := [],
                nextStoreId := 2, nextProductId := 1, nextPriceId := 1 },
        productsSaved := 0, pricesSaved := 0 } with hF1
    have ins1' : F1.db.products.map triple = freshTriples 1 1 batch := by
      have h := ins1
      rwa [List.map_nil, List.nil_append] at h
    have ins2' : ∀ pid, (pricesFor F1.db pid).length =
        (freshTriples 1 1 batch).countP (fun t => t.1 == pid) := by
      intro pid
      have h := ins2 pid
      simpa [pricesFor] using h
    have hcat1 : F1.db.categories = [] := ins3
    have hstores1 : F1.db.stores = [{ id := 1, name := storeNameOf src, url := src }] :=
      ins4
    have hg2 : get_or_create_store F1.db src = (1, F1.db) := by
      unfold get_or_create_store
      rw [hstores1]
      simp [List.find?]
    have hfound : ∀ r ∈ batch, ∃ row, findByKey F1.db.products 1 (urlOf r) = some row := by
      intro r hr
      have hsome : (idAtT (F1.db.products.map triple) 1 (urlOf r)).isSome = true := by
        rw [ins1']
        exact freshTriples_idAtT_isSome 1 batch 1 r hr
      rw [← findByKey_map_id] at hsome
      cases hfk : findByKey F1.db.products 1 (urlOf r) with
      | none => rw [hfk] at hsome; simp at hsome
      | some row => exact ⟨row, rfl⟩
    obtain ⟨upd1, upd2, upd3, upd4, upd5, upd6⟩ :=
      save_loop_update now2 1 batch
        { db := F1.db, productsSaved := 0, pricesSaved := 0 } hval hcat1 hfound
    set F2 : SaveState := batch.foldl (processRecord now2 1 none)
      { db := F1.db, productsSaved := 0, pricesSaved := 0 } with hF2
    have upd1' : F2.db.products.map triple = F1.db.products.map triple := upd1
    have upd2' : ∀ pid, (pricesFor F2.db pid).length =
        (pricesFor F1.db pid).length +
          batch.countP (fun r =>
            idAtT (F1.db.products.map triple) 1 (urlOf r) == some pid) := upd2
    have e1 : (save_scraped_products now1 emptyDB true batch src none).2 = F1.db := by
      rw [save_unfold now1 emptyDB batch src hbe 1 _ hg1]
    have e2 : (save_scraped_products now2 F1.db true batch src none).2 = F2.db := by
      rw [save_unfold now2 F1.db batch src hbe 1 F1.db hg2]
    have hsid : (get_or_create_store emptyDB src).1 = 1 := by rw [hg1]
    rw [e1, e2, hsid]
    refine ⟨?_, ?_, ?_, ?_⟩
    · calc F2.db.products.length
          = (F2.db.products.map triple).length := (List.length_map _ _).symm
        _ = (F1.db.products.map triple).length := by rw [upd1']
        _ = F1.db.products.length := List.length_map _ _
    · calc F1.db.products.length
          = (F1.db.products.map triple).length := (List.length_map _ _).symm
        _ = (freshTriples 1 1 batch).length := by rw [ins1']
        _ = batch.length := freshTriples_length 1 batch 1
    · unfold oneRowPerUrl
      rw [List.all_eq_true]
      intro ou hou
      obtain ⟨r, hr, hru⟩ := List.mem_map.mp hou
      obtain ⟨u, hu⟩ := validRecord_url r (List.all_eq_true.mp hval r hr)
      rw [← hru, hu]
      have hck : countKey F2.db.products 1 u = 1 := by
        rw [countKey_eq_countKeyT, upd1', ins1', freshTriples_countKeyT 1 batch u 1]
        exact countP_urlOf_unique batch u hval hnodup (by rw [← hu, hru]; exact hou)
      simp [hck]
    · unfold twoPricesPerProduct
      rw [List.all_eq_true]
      intro q hq
      have htr : triple q ∈ F2.db.products.map triple := List.mem_map_of_mem triple hq
      rw [upd1', ins1'] at htr
      obtain ⟨hge, hlt, -⟩ := freshTriples_mem 1 batch 1 (triple q) htr
      have hid1 : 1 ≤ q.id := hge
      have hid2 : q.id < 1 + batch.length := hlt
      have hlen : (pricesFor F2.db q.id).length = 2 := by
        rw [upd2' q.id, ins2' q.id]
        simp only [ins1']
        rw [freshTriples_countP_id 1 batch 1 q.id,
            freshTriples_countP_idAtT 1 batch 1 q.id hval hnodup]
        rw [if_pos ⟨hid1, hid2⟩]
      simp [hlen]

/-- Claim C6, witnessed at a concrete two-record batch. -/
theorem C6_idempotent_rescrape_witness :
    batchC6.all validRecord = true ∧
    (batchC6.map ScrapedRecord.url).Nodup ∧
    ((save_scraped_products 9 (save_scraped_products 5 emptyDB true batchC6
          "https://shop.test/list" none).2 true batchC6
          "https://shop.test/list" none).2.products.length =
        (save_scraped_products 5 emptyDB true batchC6
          "https://shop.test/list" none).2.products.length ∧
      (save_scraped_products 5 emptyDB true batchC6
          "https://shop.test/list" none).2.products.length = batchC6.length ∧
      oneRowPerUrl (save_scraped_products 9 (save_scraped_products 5 emptyDB true batchC6
            "https://shop.test/list" none).2 true batchC6
            "https://shop.test/list" none).2
        (get_or_create_store emptyDB "https://shop.test/list").1
        (batchC6.map ScrapedRecord.url) = true ∧
      twoPricesPerProduct (save_scraped_products 9 (save_scraped_products 5 emptyDB true
            batchC6 "https://shop.test/list" none).2 true batchC6
            "https://shop.test/list" none).2 = true) :=
  ⟨by decide, by decide,
   C6_idempotent_rescrape 5 9 batchC6 "https://shop.test/list" (by decide) (by decide)⟩
